import Mathlib

/- Shallow embedding of the breez_sdk_3hour_workshop command-line program
   (src/main.rs). The embedding models:
   - the L402 challenge parser: the Rust regex
     `^L402 (token|macaroon)="(.*)", invoice="(.*)"` applied with
     `Regex::captures`, with the regex crate's leftmost-first (Perl-like,
     greedy) semantics where `.` matches any character except a newline;
   - the chat-gpt HTTP-402 exchange (the `Commands::ChatGPT` arm of `main`),
     with the external HTTP server and the Breez node abstracted as inputs
     and all `unwrap`/`expect`/`unreachable!` panics modelled as errors;
   - `get_env_var` and the environment-reading head of `connect`;
   - `lnurl_withdraw`. -/

/-! ## Challenge parser (the regex in the ChatGPT arm, main.rs lines 99-107) -/

/-- Matches the literal character list `p` at the head of `cs`; on success
returns the rest of `cs`. This models the regex engine consuming a literal. -/
def dropAfter : List Char → List Char → Option (List Char)
  | [], cs => some cs
  | _ :: _, [] => none
  | p :: ps, c :: cs => if c = p then dropAfter ps cs else none

/-- The literal separator `", invoice="` between the two capture groups. -/
def sepL : List Char := "\", invoice=\"".toList

/-- Greedy match of the regex tail `(.*)"` : the capture is everything up to
the last `"` that is reachable without crossing a newline (the regex crate's
`.` does not match a newline); returns the capture and the uneaten rest.
The rest is unconstrained because the regex has no `$` anchor. -/
def greedyToQuote : List Char → Option (List Char × List Char)
  | [] => none
  | c :: rest =>
    match (if c = '\n' then none else (greedyToQuote rest).map (fun p => (c :: p.1, p.2))) with
    | some p => some p
    | none => if c = '"' then some ([], rest) else none

/-- Attempt to match `", invoice="(.*)"` at the current position: consume the
literal separator, then greedily match the invoice capture. -/
def sepBranch (cs : List Char) : Option (List Char × List Char) :=
  match dropAfter sepL cs with
  | some r2 => (greedyToQuote r2).map (fun p => (([] : List Char), p.1))
  | none => none

/-- Greedy match of `(.*)", invoice="(.*)"` : the first capture extends as far
as possible (backtracking preference of a greedy `.*`), falling back to
matching the separator at the current position. Returns (token, invoice). -/
def matchTI : List Char → Option (List Char × List Char)
  | [] => none
  | c :: rest =>
    match (if c = '\n' then none else (matchTI rest).map (fun p => (c :: p.1, p.2))) with
    | some p => some p
    | none => sepBranch (c :: rest)

/-- The literal head of the pattern for the `token` keyword: `L402 token="`. -/
def l402TokenKw : List Char := "L402 token=\"".toList

/-- The literal head of the pattern for the `macaroon` keyword: `L402 macaroon="`. -/
def l402MacaroonKw : List Char := "L402 macaroon=\"".toList

/-- The whole anchored pattern `^L402 (token|macaroon)="(.*)", invoice="(.*)"`
on character lists: match one of the two literal heads, then the two greedy
captures. `none` models the `.expect("WWW-Authenticate header is not a valid
L402")` panic. -/
def parseL402Core (cs : List Char) : Option (List Char × List Char) :=
  match dropAfter l402TokenKw cs with
  | some r => matchTI r
  | none =>
    match dropAfter l402MacaroonKw cs with
    | some r => matchTI r
    | none => none

/-- The challenge parser on strings, as used by the ChatGPT arm. -/
def parseL402 (s : String) : Option (String × String) :=
  (parseL402Core s.toList).map (fun p => (String.mk p.1, String.mk p.2))

/-! ## GptRequest serialization (serde_json of the derived Serialize impls) -/

/-- A chat message, mirroring `struct GptMessage`. -/
structure GptMessage where
  role : String
  content : String

/-- The request body, mirroring `struct GptRequest`. -/
structure GptRequest where
  model : String
  messages : List GptMessage

/-- Lower-case hex digit, as emitted by serde_json for control characters. -/
def toHexDigit (n : Nat) : Char :=
  if n < 10 then Char.ofNat (48 + n) else Char.ofNat (87 + n)

/-- serde_json string escaping: `"`, `\`, the short control escapes, and
`\u00XX` for the remaining control characters; everything else verbatim. -/
def escapeJsonChar (c : Char) : List Char :=
  if c = '"' then ['\\', '"']
  else if c = '\\' then ['\\', '\\']
  else if c = '\x08' then ['\\', 'b']
  else if c = '\x0c' then ['\\', 'f']
  else if c = '\n' then ['\\', 'n']
  else if c = '\r' then ['\\', 'r']
  else if c = '\t' then ['\\', 't']
  else if c.toNat < 32 then ['\\', 'u', '0', '0', toHexDigit (c.toNat / 16), toHexDigit (c.toNat % 16)]
  else [c]

/-- A JSON string literal for `s`. -/
def jsonStr (s : String) : String :=
  "\"" ++ String.mk (s.toList.flatMap escapeJsonChar) ++ "\""

/-- serde_json output for one `GptMessage` (field order of the struct). -/
def serializeGptMessage (m : GptMessage) : String :=
  "\x7b\"role\":" ++ jsonStr m.role ++ ",\"content\":" ++ jsonStr m.content ++ "\x7d"

/-- serde_json output for a `GptRequest` (field order of the struct; compact
form, as produced by `reqwest::RequestBuilder::json`). -/
def serializeGptRequest (r : GptRequest) : String :=
  "\x7b\"model\":" ++ jsonStr r.model ++ ",\"messages\":[" ++
    String.intercalate "," (r.messages.map serializeGptMessage) ++ "]\x7d"

/-! ## The HTTP-402 exchange (the `Commands::ChatGPT` arm of `main`) -/

/-- An HTTP response as observed by the client: status, the decoded
`WWW-Authenticate` header if present, and the body text. -/
structure HttpResponse where
  status : Nat
  wwwAuthenticate : Option String
  body : String

/-- One POST issued by the client: target URL, optional `Authorization`
header, and the serialized JSON body. -/
structure Post where
  url : String
  auth : Option String
  body : String

/-- Externally observable actions of the exchange, in order. -/
inductive Event where
  | post (p : Post)
  | payment (invoice : String)

/-- The preimage-carrying data of a Lightning payment
(`LnPaymentDetails.payment_preimage`). -/
structure LnPaymentDetails where
  payment_preimage : String

/-- `breez_sdk_core::PaymentDetails`: the Lightning variant with its data, or
the other (closed-channel) variant. -/
inductive PaymentDetails where
  | ln (data : LnPaymentDetails)
  | closedChannel

/-- A payment outcome returned by `send_payment`. -/
structure Payment where
  details : PaymentDetails

/-- Abortive outcomes of the exchange. Each constructor corresponds to a
panic site in the ChatGPT arm: `noChallenge` to the `.expect` on the missing
header, `malformedChallenge` to the `.expect` on the regex, and
`paymentFailed` to a panic in the payment step (the `.unwrap` on a
`send_payment` error, carrying that error, or the `unreachable!()` arm,
carrying the panic text). -/
inductive ExchangeError where
  | noChallenge
  | malformedChallenge
  | paymentFailed (reason : String)

/-- The external collaborators of the exchange: the server's response to the
first unauthenticated POST, its response to the retry as a function of the
`Authorization` header value, and the node's `send_payment`. -/
structure World where
  firstResp : HttpResponse
  retryResp : String → HttpResponse
  sendPayment : String → Except String Payment

/-- The hard-coded endpoint of the ChatGPT arm. -/
def gptUrl : String := "http://178.21.114.20:8000/openai/v1/chat/completions"

/-- The request built from the prompt: model `gpt-3.5-turbo`, one user turn. -/
def mkGptRequest (prompt : String) : GptRequest :=
  { model := "gpt-3.5-turbo", messages := [{ role := "user", content := prompt }] }

/-- The retry credential, mirroring `format!("L402 {}:{}", token, preimage)`. -/
def authHeaderValue (tok preim : String) : String :=
  "L402 " ++ tok ++ ":" ++ preim

/-- The first, unauthenticated POST. -/
def mkFirstPost (prompt : String) : Post :=
  { url := gptUrl, auth := none, body := serializeGptRequest (mkGptRequest prompt) }

/-- The authenticated retry POST; the body is the same `req` serialized again. -/
def mkRetryPost (prompt tok preim : String) : Post :=
  { url := gptUrl, auth := some (authHeaderValue tok preim),
    body := serializeGptRequest (mkGptRequest prompt) }

/-- The ChatGPT arm of `main` (lines 75-140): POST, read the
`WWW-Authenticate` header (panic if absent), parse it with the regex (panic
if no match), pay the invoice (panic on error or on a non-Lightning details
variant), build the `Authorization` header, POST again, and surface the
retry's status and body. The first response's status is logged but never
branched on. Returns the outcome and the trace of externally visible events. -/
def chatGptExchange (w : World) (prompt : String) :
    Except ExchangeError (Nat × String) × List Event :=
  match w.firstResp.wwwAuthenticate with
  | none => (.error .noChallenge, [.post (mkFirstPost prompt)])
  | some hdr =>
    match parseL402 hdr with
    | none => (.error .malformedChallenge, [.post (mkFirstPost prompt)])
    | some (tok, inv) =>
      match w.sendPayment inv with
      | .error r =>
        (.error (.paymentFailed r), [.post (mkFirstPost prompt), .payment inv])
      | .ok pay =>
        match pay.details with
        | .ln data =>
          (.ok ((w.retryResp (authHeaderValue tok data.payment_preimage)).status,
                (w.retryResp (authHeaderValue tok data.payment_preimage)).body),
           [.post (mkFirstPost prompt), .payment inv,
            .post (mkRetryPost prompt tok data.payment_preimage)])
        | .closedChannel =>
          (.error (.paymentFailed "internal error: entered unreachable code"),
           [.post (mkFirstPost prompt), .payment inv])

/-- Number of POSTs in a trace. -/
def postCount : List Event → Nat
  | [] => 0
  | .post _ :: tr => postCount tr + 1
  | .payment _ :: tr => postCount tr

/-- Number of payment attempts in a trace. -/
def paymentCount : List Event → Nat
  | [] => 0
  | .post _ :: tr => paymentCount tr
  | .payment _ :: tr => paymentCount tr + 1

/-- The bodies of the POSTs in a trace, in order. -/
def postBodies : List Event → List String
  | [] => []
  | .post p :: tr => p.body :: postBodies tr
  | .payment _ :: tr => postBodies tr

/-- The POSTs of a trace that carry an `Authorization` header (the retries). -/
def retryPosts : List Event → List Post
  | [] => []
  | .post p :: tr => if p.auth.isSome then p :: retryPosts tr else retryPosts tr
  | .payment _ :: tr => retryPosts tr

/-- Replace the status of the first response, leaving everything else. -/
def setFirstStatus (w : World) (s : Nat) : World :=
  { w with firstResp := { w.firstResp with status := s } }

/-! ## Environment variables (`get_env_var`, lines 196-207, and `connect`) -/

/-- `get_env_var`: read the variable (the environment is a partial map), fail
with the fixed message "variable not set" when absent and "variable is empty"
when empty. -/
def get_env_var (env : String → Option String) (name : String) : Except String String :=
  match env name with
  | none => .error "variable not set"
  | some v => if v = "" then .error "variable is empty" else .ok v

/-- The environment-reading head of `connect` (lines 256-261): the three
`get_env_var(..).unwrap()` calls in order; the first failure aborts. -/
def connectEnvStep (env : String → Option String) :
    Except String (String × String × String) :=
  match get_env_var env "MNEMONIC" with
  | .error e => .error e
  | .ok m =>
    match get_env_var env "GREENLIGHT_INVITE_CODE" with
    | .error e => .error e
    | .ok g =>
      match get_env_var env "BREEZ_API_KEY" with
      | .error e => .error e
      | .ok k => .ok (m, g, k)

/-- The three environment variables `connect` requires, in read order. -/
def requiredEnvVars : List String :=
  ["MNEMONIC", "GREENLIGHT_INVITE_CODE", "BREEZ_API_KEY"]

/-- Whether `needle` occurs as a contiguous subsequence of `hay`. -/
def occursIn (needle : List Char) : List Char → Bool
  | [] => needle.isEmpty
  | c :: rest => (dropAfter needle (c :: rest)).isSome || occursIn needle rest

/-! ## lnurl_withdraw (lines 301-314) -/

/-- The withdraw-challenge data; `max_withdrawable` is in millisatoshi (u64). -/
structure LnUrlWithdrawRequestData where
  max_withdrawable : Nat

/-- The result of `parse(lnurl)`: the `LnUrlWithdraw` variant with its data,
or any of the other input variants. -/
inductive InputType where
  | lnUrlWithdraw (data : LnUrlWithdrawRequestData)
  | otherInput

/-- Externally observable actions of `lnurl_withdraw`, in order. -/
inductive LnurlEvent where
  | connectLsp (lspId : String)
  | withdraw (maxWithdrawableMsat : Nat) (amountSat : Nat) (description : Option String)

/-- The external collaborators of `lnurl_withdraw`: `sdk.lsp_id()` (a result
holding an optional id), `sdk.connect_lsp`, `parse`, and the node's
`lnurl_withdraw` call (its returned value is discarded by the source). -/
structure LnurlWorld where
  lspIdResult : Except String (Option String)
  connectLspCall : String → Except String Unit
  parseInput : String → Except String InputType
  withdrawCall : LnUrlWithdrawRequestData → Nat → Option String → Except String Unit

/-- `lnurl_withdraw`: fetch and unwrap the LSP id (panic if the call fails or
returns no id), connect to the LSP (panic on failure), parse the LNURL, and
only when the result matches `Ok(LnUrlWithdraw { data })` withdraw
`max_withdrawable / 1000` satoshi with description "Test withdraw"; any other
parse result silently succeeds. Returns the outcome and the event trace. -/
def lnurl_withdraw (w : LnurlWorld) (lnurl : String) :
    Except String Unit × List LnurlEvent :=
  match w.lspIdResult with
  | .error e => (.error e, [])
  | .ok none => (.error "called Option::unwrap on a None value", [])
  | .ok (some lspId) =>
    match w.connectLspCall lspId with
    | .error e => (.error e, [.connectLsp lspId])
    | .ok _ =>
      match w.parseInput lnurl with
      | .ok (.lnUrlWithdraw wd) =>
        let amount_msat := wd.max_withdrawable
        let ev := LnurlEvent.withdraw wd.max_withdrawable (amount_msat / 1000) (some "Test withdraw")
        match w.withdrawCall wd (amount_msat / 1000) (some "Test withdraw") with
        | .error e => (.error e, [.connectLsp lspId, ev])
        | .ok _ => (.ok (), [.connectLsp lspId, ev])
      | _ => (.ok (), [.connectLsp lspId])

/-! ## Parser lemmas -/

theorem dropAfter_append (p x : List Char) : dropAfter p (p ++ x) = some x := by
  induction p with
  | nil => rfl
  | cons c ps ih => simp [dropAfter, ih]

theorem dropAfter_sound {p cs r : List Char} (h : dropAfter p cs = some r) :
    cs = p ++ r := by
  induction p generalizing cs with
  | nil =>
    simp [dropAfter] at h
    simp [h]
  | cons c ps ih =>
    cases cs with
    | nil => simp [dropAfter] at h
    | cons d rest =>
      by_cases hd : d = c
      · subst hd
        simp only [dropAfter, if_pos rfl] at h
        simpa using ih h
      · simp [dropAfter, hd] at h

theorem greedyToQuote_cons_ne {c : Char} (hc : c ≠ '\n') (rest : List Char) :
    greedyToQuote (c :: rest) =
      match (greedyToQuote rest).map (fun p => (c :: p.1, p.2)) with
      | some p => some p
      | none => if c = '"' then some ([], rest) else none := by
  rw [greedyToQuote, if_neg hc]

theorem matchTI_cons_ne {c : Char} (hc : c ≠ '\n') (rest : List Char) :
    matchTI (c :: rest) =
      match (matchTI rest).map (fun p => (c :: p.1, p.2)) with
      | some p => some p
      | none => sepBranch (c :: rest) := by
  rw [matchTI, if_neg hc]

theorem sepBranch_eval (x : List Char) :
    sepBranch (sepL ++ x) =
      (greedyToQuote x).map (fun p => (([] : List Char), p.1)) := by
  unfold sepBranch
  rw [dropAfter_append]

theorem greedyToQuote_sound {cs i r : List Char}
    (h : greedyToQuote cs = some (i, r)) : cs = i ++ '"' :: r ∧ '\n' ∉ i := by
  induction cs generalizing i r with
  | nil => simp [greedyToQuote] at h
  | cons c rest ih =>
    by_cases hc : c = '\n'
    · subst hc
      simp [greedyToQuote] at h
    · rw [greedyToQuote_cons_ne hc] at h
      rcases hg : greedyToQuote rest with _ | ⟨i0, r0⟩
      · rw [hg] at h
        by_cases hq : c = '"'
        · subst hq
          simp at h
          obtain ⟨hi, hr⟩ := h
          subst hi; subst hr
          exact ⟨rfl, by simp⟩
        · simp [hq] at h
      · rw [hg] at h
        simp at h
        obtain ⟨hi, hr⟩ := h
        subst hi; subst hr
        obtain ⟨h1, h2⟩ := ih hg
        subst h1
        refine ⟨rfl, ?_⟩
        intro hm
        rcases List.mem_cons.mp hm with he | hm2
        · exact hc he.symm
        · exact h2 hm2

theorem greedyToQuote_isSome {i : List Char} (hnl : '\n' ∉ i) (r : List Char) :
    (greedyToQuote (i ++ '"' :: r)).isSome = true := by
  induction i with
  | nil =>
    simp only [List.nil_append]
    rw [greedyToQuote_cons_ne (by decide : ('"' : Char) ≠ '\n')]
    rcases hg : greedyToQuote r with _ | p
    · simp
    · simp
  | cons c i2 ih =>
    have hc : c ≠ '\n' := fun h => hnl (by simp [h])
    have ih2 := ih (fun hm => hnl (List.mem_cons_of_mem _ hm))
    rcases hg : greedyToQuote (i2 ++ '"' :: r) with _ | p
    · rw [hg] at ih2; simp at ih2
    · simp only [List.cons_append]
      rw [greedyToQuote_cons_ne hc, hg]
      simp

theorem greedyToQuote_exact {i : List Char} (hnl : '\n' ∉ i) :
    greedyToQuote (i ++ ['"']) = some (i, []) := by
  induction i with
  | nil => rfl
  | cons c i2 ih =>
    have hc : c ≠ '\n' := fun h => hnl (by simp [h])
    have ih2 := ih (fun hm => hnl (List.mem_cons_of_mem _ hm))
    simp only [List.cons_append]
    rw [greedyToQuote_cons_ne hc, ih2]
    rfl

theorem sepBranch_sound {cs t i : List Char} (h : sepBranch cs = some (t, i)) :
    t = [] ∧ ∃ r, cs = sepL ++ (i ++ '"' :: r) ∧ '\n' ∉ i := by
  unfold sepBranch at h
  rcases hd : dropAfter sepL cs with _ | r2
  · rw [hd] at h
    exact Option.noConfusion h
  · rw [hd] at h
    simp only [] at h
    rcases hg : greedyToQuote r2 with _ | ⟨i0, r0⟩
    · rw [hg] at h; simp at h
    · rw [hg] at h
      simp at h
      obtain ⟨ht, hi⟩ := h
      subst ht; subst hi
      obtain ⟨hr2, hnl⟩ := greedyToQuote_sound hg
      subst hr2
      exact ⟨rfl, r0, dropAfter_sound hd, hnl⟩

theorem matchTI_sound {cs t i : List Char} (h : matchTI cs = some (t, i)) :
    ∃ r, cs = t ++ (sepL ++ (i ++ '"' :: r)) ∧ '\n' ∉ t ∧ '\n' ∉ i := by
  induction cs generalizing t i with
  | nil => simp [matchTI] at h
  | cons c rest ih =>
    by_cases hc : c = '\n'
    · subst hc
      rw [matchTI, if_pos rfl] at h
      obtain ⟨ht, r0, hcs, hnl⟩ := sepBranch_sound h
      subst ht
      exact ⟨r0, by simpa using hcs, by simp, hnl⟩
    · rw [matchTI_cons_ne hc] at h
      rcases hrec : matchTI rest with _ | q
      · rw [hrec] at h
        simp only [Option.map_none'] at h
        obtain ⟨ht, r0, hcs, hnl⟩ := sepBranch_sound h
        subst ht
        exact ⟨r0, by simpa using hcs, by simp, hnl⟩
      · rw [hrec] at h
        obtain ⟨t0, i0⟩ := q
        simp at h
        obtain ⟨ht, hi⟩ := h
        subst ht; subst hi
        obtain ⟨r0, hcs, hnt, hni⟩ := ih hrec
        subst hcs
        refine ⟨r0, by simp, ?_, hni⟩
        intro hm
        rcases List.mem_cons.mp hm with he | hm2
        · exact hc he.symm
        · exact hnt hm2

theorem matchTI_quotes {cs t i : List Char} (h : matchTI cs = some (t, i)) :
    3 ≤ cs.count '"' := by
  obtain ⟨r, hcs, _, _⟩ := matchTI_sound h
  subst hcs
  have hsep : sepL.count '"' = 2 := by decide
  have h1 : (t ++ (sepL ++ (i ++ '"' :: r))).count '"' =
      t.count '"' + (sepL.count '"' + (i.count '"' + ('"' :: r).count '"')) := by
    simp [List.count_append]
  have h2 : ('"' :: r).count '"' = r.count '"' + 1 := by
    simp [List.count_cons]
  rw [h1, h2, hsep]
  omega

theorem matchTI_complete {t i : List Char} (hnt : '\n' ∉ t) (hni : '\n' ∉ i)
    (r : List Char) :
    (matchTI (t ++ (sepL ++ (i ++ '"' :: r)))).isSome = true := by
  induction t with
  | nil =>
    simp only [List.nil_append]
    rw [show sepL ++ (i ++ '"' :: r)
          = '"' :: (", invoice=\"".toList ++ (i ++ '"' :: r)) from rfl]
    rw [matchTI_cons_ne (by decide : ('"' : Char) ≠ '\n')]
    rcases hm : matchTI (", invoice=\"".toList ++ (i ++ '"' :: r)) with _ | p
    · show (sepBranch ('"' :: (", invoice=\"".toList ++ (i ++ '"' :: r)))).isSome = true
      rw [show ('"' :: (", invoice=\"".toList ++ (i ++ '"' :: r)))
            = sepL ++ (i ++ '"' :: r) from rfl]
      rw [sepBranch_eval]
      rcases hg : greedyToQuote (i ++ '"' :: r) with _ | p
      · have hgs := greedyToQuote_isSome hni r
        rw [hg] at hgs
        simp at hgs
      · simp
    · simp
  | cons c t2 ih =>
    have hc : c ≠ '\n' := fun h => hnt (by simp [h])
    have ih2 := ih (fun hm => hnt (List.mem_cons_of_mem _ hm))
    rcases hrec : matchTI (t2 ++ (sepL ++ (i ++ '"' :: r))) with _ | p
    · rw [hrec] at ih2; simp at ih2
    · simp only [List.cons_append]
      rw [matchTI_cons_ne hc, hrec]
      simp

theorem matchTI_exact {t i : List Char} (hqt : '"' ∉ t) (hnt : '\n' ∉ t)
    (hqi : '"' ∉ i) (hni : '\n' ∉ i) :
    matchTI (t ++ (sepL ++ (i ++ ['"']))) = some (t, i) := by
  induction t with
  | nil =>
    have hnone : matchTI (", invoice=\"".toList ++ (i ++ ['"'])) = none := by
      rcases h : matchTI (", invoice=\"".toList ++ (i ++ ['"'])) with _ | p
      · rfl
      · exfalso
        obtain ⟨t0, i0⟩ := p
        have h3 := matchTI_quotes h
        have hic : i.count '"' = 0 := List.count_eq_zero_of_not_mem hqi
        have h4 : (", invoice=\"".toList ++ (i ++ ['"'])).count '"' = 2 := by
          have hsc : (", invoice=\"".toList).count '"' = 1 := by decide
          have hone : (['"'] : List Char).count '"' = 1 := by decide
          simp [List.count_append, hic, hsc, hone]
        rw [h4] at h3
        omega
    simp only [List.nil_append]
    rw [show sepL ++ (i ++ ['"'])
          = '"' :: (", invoice=\"".toList ++ (i ++ ['"'])) from rfl]
    rw [matchTI_cons_ne (by decide : ('"' : Char) ≠ '\n'), hnone]
    show sepBranch ('"' :: (", invoice=\"".toList ++ (i ++ ['"']))) = some ([], i)
    rw [show ('"' :: (", invoice=\"".toList ++ (i ++ ['"'])))
          = sepL ++ (i ++ ['"']) from rfl]
    rw [sepBranch_eval, greedyToQuote_exact hni]
    rfl
  | cons c t2 ih =>
    have hc : c ≠ '\n' := fun h => hnt (by simp [h])
    have ih2 := ih (fun hm => hqt (List.mem_cons_of_mem _ hm))
      (fun hm => hnt (List.mem_cons_of_mem _ hm))
    simp only [List.cons_append]
    rw [matchTI_cons_ne hc, ih2]
    rfl

theorem dropAfter_tok_mac (x : List Char) :
    dropAfter l402TokenKw (l402MacaroonKw ++ x) = none := rfl

theorem parseL402Core_isSome_iff (cs : List Char) :
    (parseL402Core cs).isSome = true ↔
      ∃ t i r, ('\n' ∉ t ∧ '\n' ∉ i) ∧
        (cs = l402TokenKw ++ (t ++ (sepL ++ (i ++ '"' :: r))) ∨
         cs = l402MacaroonKw ++ (t ++ (sepL ++ (i ++ '"' :: r)))) := by
  constructor
  · intro h
    unfold parseL402Core at h
    rcases h1 : dropAfter l402TokenKw cs with _ | r1
    · rw [h1] at h
      simp only [] at h
      rcases h2 : dropAfter l402MacaroonKw cs with _ | r1
      · rw [h2] at h; simp at h
      · rw [h2] at h
        simp only [] at h
        rcases hm : matchTI r1 with _ | q
        · rw [hm] at h; simp at h
        · obtain ⟨t, i⟩ := q
          obtain ⟨r, hdec, hnt, hni⟩ := matchTI_sound hm
          exact ⟨t, i, r, ⟨hnt, hni⟩, .inr (by rw [dropAfter_sound h2, hdec])⟩
    · rw [h1] at h
      simp only [] at h
      rcases hm : matchTI r1 with _ | q
      · rw [hm] at h; simp at h
      · obtain ⟨t, i⟩ := q
        obtain ⟨r, hdec, hnt, hni⟩ := matchTI_sound hm
        exact ⟨t, i, r, ⟨hnt, hni⟩, .inl (by rw [dropAfter_sound h1, hdec])⟩
  · rintro ⟨t, i, r, ⟨hnt, hni⟩, hcs | hcs⟩
    · subst hcs
      unfold parseL402Core
      rw [dropAfter_append]
      exact matchTI_complete hnt hni r
    · subst hcs
      unfold parseL402Core
      rw [dropAfter_tok_mac, dropAfter_append]
      exact matchTI_complete hnt hni r

/-! ## Exchange evaluation lemmas -/

theorem chatGptExchange_noHdr {w : World} (prompt : String)
    (h : w.firstResp.wwwAuthenticate = none) :
    chatGptExchange w prompt = (.error .noChallenge, [.post (mkFirstPost prompt)]) := by
  unfold chatGptExchange
  rw [h]

theorem chatGptExchange_badHdr {w : World} (prompt : String) {hdr : String}
    (h1 : w.firstResp.wwwAuthenticate = some hdr) (h2 : parseL402 hdr = none) :
    chatGptExchange w prompt = (.error .malformedChallenge, [.post (mkFirstPost prompt)]) := by
  unfold chatGptExchange
  simp only [h1, h2]

theorem chatGptExchange_payErr {w : World} (prompt : String) {hdr tok inv r : String}
    (h1 : w.firstResp.wwwAuthenticate = some hdr)
    (h2 : parseL402 hdr = some (tok, inv))
    (h3 : w.sendPayment inv = .error r) :
    chatGptExchange w prompt =
      (.error (.paymentFailed r), [.post (mkFirstPost prompt), .payment inv]) := by
  unfold chatGptExchange
  simp only [h1, h2, h3]

theorem chatGptExchange_ln {w : World} (prompt : String) {hdr tok inv : String}
    {pay : Payment} {d : LnPaymentDetails}
    (h1 : w.firstResp.wwwAuthenticate = some hdr)
    (h2 : parseL402 hdr = some (tok, inv))
    (h3 : w.sendPayment inv = .ok pay)
    (h4 : pay.details = .ln d) :
    chatGptExchange w prompt =
      (.ok ((w.retryResp (authHeaderValue tok d.payment_preimage)).status,
            (w.retryResp (authHeaderValue tok d.payment_preimage)).body),
       [.post (mkFirstPost prompt), .payment inv,
        .post (mkRetryPost prompt tok d.payment_preimage)]) := by
  unfold chatGptExchange
  simp only [h1, h2, h3, h4]

theorem chatGptExchange_closed {w : World} (prompt : String) {hdr tok inv : String}
    {pay : Payment}
    (h1 : w.firstResp.wwwAuthenticate = some hdr)
    (h2 : parseL402 hdr = some (tok, inv))
    (h3 : w.sendPayment inv = .ok pay)
    (h4 : pay.details = .closedChannel) :
    chatGptExchange w prompt =
      (.error (.paymentFailed "internal error: entered unreachable code"),
       [.post (mkFirstPost prompt), .payment inv]) := by
  unfold chatGptExchange
  simp only [h1, h2, h3, h4]

/-! ## Concrete worlds used in closed evaluations -/

/-- A well-formed challenge header used in concrete runs. -/
def sampleHdr : String := "L402 token=\"abc\", invoice=\"lnbc1\""

/-- A server answering 200 to the first POST while still sending a challenge,
answering the retry with 200/"SECOND"; a node paying with preimage "deadbeef". -/
def w200 : World :=
  { firstResp := { status := 200, wwwAuthenticate := some sampleHdr, body := "FIRST" }
    retryResp := fun _ => { status := 200, wwwAuthenticate := none, body := "SECOND" }
    sendPayment := fun _ => .ok { details := .ln { payment_preimage := "deadbeef" } } }

/-- A server whose answer to the retry is 402 again. -/
def w402 : World :=
  { firstResp := { status := 402, wwwAuthenticate := some sampleHdr, body := "FIRST" }
    retryResp := fun _ => { status := 402, wwwAuthenticate := none, body := "denied" }
    sendPayment := fun _ => .ok { details := .ln { payment_preimage := "deadbeef" } } }

/-- A node that fails every payment. -/
def wPayFail : World :=
  { firstResp := { status := 402, wwwAuthenticate := some sampleHdr, body := "FIRST" }
    retryResp := fun _ => { status := 200, wwwAuthenticate := none, body := "SECOND" }
    sendPayment := fun _ => .error "no route" }

/-! ## Claim C2 -/

/-- C2 counterexample: the claim requires every string outside the exact L402
grammar to fail with MalformedChallenge, but the regex has no end anchor:
`L402 token="a", invoice="b"X` ends in `X` (every grammar string ends in a
quote), yet the parser accepts it and returns ("a", "b"). -/
theorem c2_counterexample :
    parseL402Core ("L402 token=\"a\", invoice=\"b\"X".toList) = some (['a'], ['b'])
    ∧ ("L402 token=\"a\", invoice=\"b\"X".toList).getLast? = some 'X' := by
  constructor
  · decide
  · decide

/-- C2 (amended): on exact grammar strings whose token and invoice contain no
quote and no newline the parser returns exactly (token, invoice), with
`token` and `macaroon` accepted equivalently; in general it succeeds on
precisely the strings that begin with `L402 token="t", invoice="i"` or
`L402 macaroon="t", invoice="i"` for newline-free `t`, `i` (quotes allowed,
matched greedily) followed by arbitrary trailing characters; every other
string fails with MalformedChallenge. -/
theorem c2_parser_characterisation :
    (∀ t i : List Char, '"' ∉ t → '\n' ∉ t → '"' ∉ i → '\n' ∉ i →
      parseL402Core (l402TokenKw ++ (t ++ (sepL ++ (i ++ ['"'])))) = some (t, i) ∧
      parseL402Core (l402MacaroonKw ++ (t ++ (sepL ++ (i ++ ['"'])))) = some (t, i)) ∧
    (∀ cs : List Char, (parseL402Core cs).isSome = true ↔
      ∃ t i r, ('\n' ∉ t ∧ '\n' ∉ i) ∧
        (cs = l402TokenKw ++ (t ++ (sepL ++ (i ++ '"' :: r))) ∨
         cs = l402MacaroonKw ++ (t ++ (sepL ++ (i ++ '"' :: r))))) := by
  constructor
  · intro t i hqt hnt hqi hni
    constructor
    · unfold parseL402Core
      simp only [dropAfter_append]
      exact matchTI_exact hqt hnt hqi hni
    · unfold parseL402Core
      simp only [dropAfter_tok_mac, dropAfter_append]
      exact matchTI_exact hqt hnt hqi hni
  · exact parseL402Core_isSome_iff

/-- C2 witness: the characterisation applied at token `a`, invoice `b`. -/
theorem c2_witness :
    parseL402Core (l402TokenKw ++ (['a'] ++ (sepL ++ (['b'] ++ ['"']))))
      = some (['a'], ['b']) :=
  (c2_parser_characterisation.1 ['a'] ['b'] (by decide) (by decide) (by decide)
    (by decide)).1

/-! ## Claim C1 -/

/-- C1 counterexample: a first response with status 200 that carries a
challenge header: the exchange still attempts one payment and returns the
retry's response ("SECOND"), not the 200 response as-is ("FIRST"),
contradicting the claimed status gating. -/
theorem c1_counterexample :
    w200.firstResp.status = 200 ∧
    paymentCount (chatGptExchange w200 "hi").2 = 1 ∧
    (chatGptExchange w200 "hi").1 = .ok (200, "SECOND") ∧
    w200.firstResp.body = "FIRST" :=
  ⟨rfl, rfl, rfl, rfl⟩

/-- C1 (amended): the exchange never inspects the first response's status:
outcome and trace are identical for every status value; and whenever the
challenge header is present and parses, exactly one payment is attempted
regardless of that status — in particular on 200 — so there is neither a
200 short-circuit nor an UnexpectedStatus failure. -/
theorem c1_status_ignored (w : World) (prompt : String) (s : Nat) :
    chatGptExchange (setFirstStatus w s) prompt = chatGptExchange w prompt ∧
    (∀ hdr tok inv, w.firstResp.wwwAuthenticate = some hdr →
      parseL402 hdr = some (tok, inv) →
      paymentCount (chatGptExchange w prompt).2 = 1) := by
  constructor
  · obtain ⟨⟨st, wa, bd⟩, rr, sp⟩ := w
    rfl
  · intro hdr tok inv h1 h2
    rcases h3 : w.sendPayment inv with r | pay
    · rw [chatGptExchange_payErr prompt h1 h2 h3]
      rfl
    · rcases h4 : pay.details with d | _
      · rw [chatGptExchange_ln prompt h1 h2 h3 h4]
        rfl
      · rw [chatGptExchange_closed prompt h1 h2 h3 h4]
        rfl

/-- C1 witness: status independence and the one payment attempt, at the
concrete 200-status world. -/
theorem c1_witness :
    chatGptExchange (setFirstStatus w200 500) "hi" = chatGptExchange w200 "hi" ∧
    paymentCount (chatGptExchange w200 "hi").2 = 1 :=
  ⟨(c1_status_ignored w200 "hi" 500).1,
   (c1_status_ignored w200 "hi" 500).2 sampleHdr "abc" "lnbc1" rfl (by decide)⟩

/-! ## Claim C3 -/

/-- C3 counterexample: when the retry returns 402 the exchange does not fail
with CredentialRejected — it succeeds, surfacing status 402 and the body. -/
theorem c3_counterexample :
    (chatGptExchange w402 "hi").1 = .ok (402, "denied") ∧
    postCount (chatGptExchange w402 "hi").2 = 2 :=
  ⟨rfl, rfl⟩

/-- C3 (amended): at most one retry — the trace never holds more than two
POSTs — but the retry's status is never inspected: whatever the retry
returns, including a second 402, the exchange succeeds with that status and
body; there is no CredentialRejected failure. -/
theorem c3_at_most_one_retry (w : World) (prompt : String) :
    postCount (chatGptExchange w prompt).2 ≤ 2 ∧
    (∀ hdr tok inv pay d, w.firstResp.wwwAuthenticate = some hdr →
      parseL402 hdr = some (tok, inv) →
      w.sendPayment inv = .ok pay → pay.details = .ln d →
      (chatGptExchange w prompt).1 =
        .ok ((w.retryResp (authHeaderValue tok d.payment_preimage)).status,
             (w.retryResp (authHeaderValue tok d.payment_preimage)).body)) := by
  constructor
  · rcases h1 : w.firstResp.wwwAuthenticate with _ | hdr
    · rw [chatGptExchange_noHdr prompt h1]
      simp [postCount]
    · rcases h2 : parseL402 hdr with _ | q
      · rw [chatGptExchange_badHdr prompt h1 h2]
        simp [postCount]
      · obtain ⟨tok, inv⟩ := q
        rcases h3 : w.sendPayment inv with r | pay
        · rw [chatGptExchange_payErr prompt h1 h2 h3]
          simp [postCount]
        · rcases h4 : pay.details with d | _
          · rw [chatGptExchange_ln prompt h1 h2 h3 h4]
            simp [postCount]
          · rw [chatGptExchange_closed prompt h1 h2 h3 h4]
            simp [postCount]
  · intro hdr tok inv pay d h1 h2 h3 h4
    rw [chatGptExchange_ln prompt h1 h2 h3 h4]

/-- C3 witness: at the world whose retry answers 402, the exchange issues two
POSTs and surfaces the 402 retry response as a success. -/
theorem c3_witness :
    postCount (chatGptExchange w402 "hi").2 ≤ 2 ∧
    (chatGptExchange w402 "hi").1 =
      .ok ((w402.retryResp (authHeaderValue "abc" "deadbeef")).status,
           (w402.retryResp (authHeaderValue "abc" "deadbeef")).body) :=
  ⟨(c3_at_most_one_retry w402 "hi").1,
   (c3_at_most_one_retry w402 "hi").2 sampleHdr "abc" "lnbc1"
     { details := .ln { payment_preimage := "deadbeef" } }
     { payment_preimage := "deadbeef" } rfl (by decide) rfl rfl⟩

/-! ## Claim C4 -/

/-- C4: the retry POST is dispatched only after send_payment returns the
Lightning variant carrying a preimage: whenever the trace holds an authorized
POST, the trace is exactly first-POST, payment, retry-POST in that order with
a successful Lightning payment; and when the payment fails, exactly one POST
is issued and no retry. -/
theorem c4_sequencing (w : World) (prompt : String) :
    (retryPosts (chatGptExchange w prompt).2 ≠ [] →
      ∃ hdr tok inv pay d,
        w.firstResp.wwwAuthenticate = some hdr ∧
        parseL402 hdr = some (tok, inv) ∧
        w.sendPayment inv = .ok pay ∧ pay.details = .ln d ∧
        (chatGptExchange w prompt).2 =
          [.post (mkFirstPost prompt), .payment inv,
           .post (mkRetryPost prompt tok d.payment_preimage)]) ∧
    (∀ hdr tok inv r, w.firstResp.wwwAuthenticate = some hdr →
      parseL402 hdr = some (tok, inv) → w.sendPayment inv = .error r →
      postCount (chatGptExchange w prompt).2 = 1 ∧
      retryPosts (chatGptExchange w prompt).2 = []) := by
  constructor
  · intro hne
    rcases h1 : w.firstResp.wwwAuthenticate with _ | hdr
    · exfalso
      apply hne
      rw [chatGptExchange_noHdr prompt h1]
      rfl
    · rcases h2 : parseL402 hdr with _ | q
      · exfalso
        apply hne
        rw [chatGptExchange_badHdr prompt h1 h2]
        rfl
      · obtain ⟨tok, inv⟩ := q
        rcases h3 : w.sendPayment inv with r | pay
        · exfalso
          apply hne
          rw [chatGptExchange_payErr prompt h1 h2 h3]
          rfl
        · rcases h4 : pay.details with d | _
          · refine ⟨hdr, tok, inv, pay, d, rfl, h2, h3, h4, ?_⟩
            rw [chatGptExchange_ln prompt h1 h2 h3 h4]
          · exfalso
            apply hne
            rw [chatGptExchange_closed prompt h1 h2 h3 h4]
            rfl
  · intro hdr tok inv r h1 h2 h3
    rw [chatGptExchange_payErr prompt h1 h2 h3]
    exact ⟨rfl, rfl⟩

/-- C4 witness: at the world whose node fails every payment, exactly one POST
is issued and there is no retry. -/
theorem c4_witness :
    postCount (chatGptExchange wPayFail "hi").2 = 1 ∧
    retryPosts (chatGptExchange wPayFail "hi").2 = [] :=
  (c4_sequencing wPayFail "hi").2 sampleHdr "abc" "lnbc1" "no route" rfl
    (by decide) rfl

/-! ## Claim C5 -/

/-- C5: in every run that reaches the retry, the retry's Authorization header
value is exactly `"L402 " ++ token ++ ":" ++ preimage` — single space after
L402, single colon between token and preimage, nothing appended. -/
theorem c5_credential_composition (w : World) (prompt : String)
    (hdr tok inv : String) (pay : Payment) (d : LnPaymentDetails)
    (h1 : w.firstResp.wwwAuthenticate = some hdr)
    (h2 : parseL402 hdr = some (tok, inv))
    (h3 : w.sendPayment inv = .ok pay) (h4 : pay.details = .ln d) :
    (retryPosts (chatGptExchange w prompt).2).map (fun p => p.auth)
      = [some ("L402 " ++ tok ++ ":" ++ d.payment_preimage)] := by
  rw [chatGptExchange_ln prompt h1 h2 h3 h4]
  rfl

/-- C5 witness: with token `abc` and preimage `deadbeef` the retry carries
the Authorization value `L402 abc:deadbeef`. -/
theorem c5_witness :
    (retryPosts (chatGptExchange w200 "hi").2).map (fun p => p.auth)
      = [some ("L402 " ++ "abc" ++ ":" ++ "deadbeef")] :=
  c5_credential_composition w200 "hi" sampleHdr "abc" "lnbc1"
    { details := .ln { payment_preimage := "deadbeef" } }
    { payment_preimage := "deadbeef" } rfl (by decide) rfl rfl

/-! ## Claim C6 -/

/-- C6: every POST of a run carries the identical serialized body — in
particular the retry body is byte-for-byte the body of the first POST, both
being the same request value serialized by the same function. -/
theorem c6_body_preservation (w : World) (prompt : String) :
    postBodies (chatGptExchange w prompt).2 =
      List.replicate (postBodies (chatGptExchange w prompt).2).length
        (serializeGptRequest (mkGptRequest prompt)) := by
  rcases h1 : w.firstResp.wwwAuthenticate with _ | hdr
  · rw [chatGptExchange_noHdr prompt h1]
    rfl
  · rcases h2 : parseL402 hdr with _ | q
    · rw [chatGptExchange_badHdr prompt h1 h2]
      rfl
    · obtain ⟨tok, inv⟩ := q
      rcases h3 : w.sendPayment inv with r | pay
      · rw [chatGptExchange_payErr prompt h1 h2 h3]
        rfl
      · rcases h4 : pay.details with d | _
        · rw [chatGptExchange_ln prompt h1 h2 h3 h4]
          rfl
        · rw [chatGptExchange_closed prompt h1 h2 h3 h4]
          rfl

/-! ## Claim C7 -/

/-- C7: once the challenge has parsed, a send_payment error makes the
exchange fail with paymentFailed carrying that error, and a successful
return whose details are not the Lightning variant makes it fail with
paymentFailed carrying the unreachable-code panic text; in both cases only
the initial POST was issued. -/
theorem c7_payment_failures (w : World) (prompt : String) (hdr tok inv : String)
    (h1 : w.firstResp.wwwAuthenticate = some hdr)
    (h2 : parseL402 hdr = some (tok, inv)) :
    (∀ r, w.sendPayment inv = .error r →
      (chatGptExchange w prompt).1 = .error (.paymentFailed r) ∧
      postCount (chatGptExchange w prompt).2 = 1) ∧
    (∀ pay, w.sendPayment inv = .ok pay → pay.details = .closedChannel →
      (chatGptExchange w prompt).1 =
        .error (.paymentFailed "internal error: entered unreachable code") ∧
      postCount (chatGptExchange w prompt).2 = 1) := by
  constructor
  · intro r h3
    rw [chatGptExchange_payErr prompt h1 h2 h3]
    exact ⟨rfl, rfl⟩
  · intro pay h3 h4
    rw [chatGptExchange_closed prompt h1 h2 h3 h4]
    exact ⟨rfl, rfl⟩

/-- C7 witness: the failing-payment world fails with paymentFailed "no route"
after a single POST. -/
theorem c7_witness :
    (chatGptExchange wPayFail "hi").1 = .error (.paymentFailed "no route") ∧
    postCount (chatGptExchange wPayFail "hi").2 = 1 :=
  (c7_payment_failures wPayFail "hi" sampleHdr "abc" "lnbc1" rfl (by decide)).1
    "no route" rfl

/-! ## Claim C8 -/

theorem get_env_var_unset {env : String → Option String} {name : String}
    (h : env name = none) : get_env_var env name = .error "variable not set" := by
  unfold get_env_var
  rw [h]

theorem get_env_var_empty {env : String → Option String} {name : String}
    (h : env name = some "") : get_env_var env name = .error "variable is empty" := by
  unfold get_env_var
  rw [h]
  simp

theorem get_env_var_ok {env : String → Option String} {name v : String}
    (h : env name = some v) (hv : v ≠ "") : get_env_var env name = .ok v := by
  unfold get_env_var
  rw [h]
  simp [hv]

/-- C8 counterexample: with `MNEMONIC` unset, the failure message is the
fixed string "variable not set", which does not contain the variable name —
the claim that the message names the variable is false. -/
theorem c8_counterexample :
    get_env_var (fun _ => none) "MNEMONIC" = .error "variable not set" ∧
    occursIn "MNEMONIC".toList "variable not set".toList = false := by
  constructor
  · rfl
  · decide

/-- C8 (amended): each of the three required variables, when unset or empty,
makes `connect` fail fatally (the `.unwrap` panics on the error) — but the
error message is the fixed string "variable not set" or "variable is empty",
neither of which names the variable. -/
theorem c8_env_failures (env : String → Option String) :
    (env "MNEMONIC" = none → connectEnvStep env = .error "variable not set") ∧
    (env "MNEMONIC" = some "" → connectEnvStep env = .error "variable is empty") ∧
    (∀ m, env "MNEMONIC" = some m → m ≠ "" → env "GREENLIGHT_INVITE_CODE" = none →
      connectEnvStep env = .error "variable not set") ∧
    (∀ m, env "MNEMONIC" = some m → m ≠ "" → env "GREENLIGHT_INVITE_CODE" = some "" →
      connectEnvStep env = .error "variable is empty") ∧
    (∀ m g, env "MNEMONIC" = some m → m ≠ "" → env "GREENLIGHT_INVITE_CODE" = some g →
      g ≠ "" → env "BREEZ_API_KEY" = none →
      connectEnvStep env = .error "variable not set") ∧
    (∀ m g, env "MNEMONIC" = some m → m ≠ "" → env "GREENLIGHT_INVITE_CODE" = some g →
      g ≠ "" → env "BREEZ_API_KEY" = some "" →
      connectEnvStep env = .error "variable is empty") ∧
    (requiredEnvVars.all (fun n =>
        !(occursIn n.toList "variable not set".toList) &&
        !(occursIn n.toList "variable is empty".toList)) = true) := by
  refine ⟨?_, ?_, ?_, ?_, ?_, ?_, by decide⟩
  · intro h
    unfold connectEnvStep
    simp only [get_env_var_unset h]
  · intro h
    unfold connectEnvStep
    simp only [get_env_var_empty h]
  · intro m hm hmne hg
    unfold connectEnvStep
    simp only [get_env_var_ok hm hmne, get_env_var_unset hg]
  · intro m hm hmne hg
    unfold connectEnvStep
    simp only [get_env_var_ok hm hmne, get_env_var_empty hg]
  · intro m g hm hmne hg hgne hb
    unfold connectEnvStep
    simp only [get_env_var_ok hm hmne, get_env_var_ok hg hgne, get_env_var_unset hb]
  · intro m g hm hmne hg hgne hb
    unfold connectEnvStep
    simp only [get_env_var_ok hm hmne, get_env_var_ok hg hgne, get_env_var_empty hb]

/-- C8 witness: an empty environment makes connect fail with the fixed
message. -/
theorem c8_witness :
    connectEnvStep (fun _ => none) = .error "variable not set" :=
  (c8_env_failures (fun _ => none)).1 rfl

/-! ## Claims C9 and C10 -/

/-- C9: when the lnurl parse result is anything other than
`Ok(LnUrlWithdraw)` — a parse error or another input variant — the
subcommand succeeds silently, having already connected to the LSP, and no
withdraw call is made. -/
theorem c9_lnurl_noop (w : LnurlWorld) (lnurl lspId : String)
    (h1 : w.lspIdResult = .ok (some lspId))
    (h2 : w.connectLspCall lspId = .ok ())
    (h3 : ∀ wd, w.parseInput lnurl ≠ .ok (.lnUrlWithdraw wd)) :
    lnurl_withdraw w lnurl = (.ok (), [.connectLsp lspId]) := by
  unfold lnurl_withdraw
  simp only [h1, h2]

/-- A world whose parse always fails. -/
def lnw1 : LnurlWorld :=
  { lspIdResult := .ok (some "lsp1")
    connectLspCall := fun _ => .ok ()
    parseInput := fun _ => .error "parse failed"
    withdrawCall := fun _ _ _ => .ok () }

/-- C9 witness: at a world whose parse fails, the subcommand succeeds with
only the LSP connection in the trace. -/
theorem c9_witness :
    lnurl_withdraw lnw1 "notanlnurl" = (.ok (), [.connectLsp "lsp1"]) :=
  c9_lnurl_noop lnw1 "notanlnurl" "lsp1" rfl rfl
    (fun _ h => Except.noConfusion h)

/-- C10: when the parse yields the withdraw variant, the node's
lnurl_withdraw is invoked with exactly `max_withdrawable / 1000` satoshi
(integer floor division of the millisatoshi maximum) and the description
"Test withdraw", whatever the call then returns. -/
theorem c10_withdraw_amount (w : LnurlWorld) (lnurl lspId : String)
    (wd : LnUrlWithdrawRequestData)
    (h1 : w.lspIdResult = .ok (some lspId))
    (h2 : w.connectLspCall lspId = .ok ())
    (h3 : w.parseInput lnurl = .ok (.lnUrlWithdraw wd)) :
    (lnurl_withdraw w lnurl).2 =
      [.connectLsp lspId,
       .withdraw wd.max_withdrawable (wd.max_withdrawable / 1000)
         (some "Test withdraw")] := by
  unfold lnurl_withdraw
  simp only [h1, h2, h3]
  rcases hw : w.withdrawCall wd (wd.max_withdrawable / 1000) (some "Test withdraw")
    with e | u
  · rfl
  · rfl

/-- A world whose parse yields a withdraw challenge of 2500 msat. -/
def lnw2 : LnurlWorld :=
  { lspIdResult := .ok (some "lsp1")
    connectLspCall := fun _ => .ok ()
    parseInput := fun _ => .ok (.lnUrlWithdraw { max_withdrawable := 2500 })
    withdrawCall := fun _ _ _ => .ok () }

/-- C10 witness: 2500 msat max results in a withdraw of 2 sat (floor). -/
theorem c10_witness :
    (lnurl_withdraw lnw2 "lnurl1").2 =
      [.connectLsp "lsp1", .withdraw 2500 2 (some "Test withdraw")] := by
  have h := c10_withdraw_amount lnw2 "lnurl1" "lsp1"
    { max_withdrawable := 2500 } rfl rfl rfl
  simpa using h
